import Mathlib

/-!
Verification of the decode-dbt repository's storage / progress / auth layer.

The Python source (src/app-railway.py, src/decode_dbt/app.py,
src/decode_dbt/backend/dbt_runner.py) is shallowly embedded below:
  * Python `str` becomes Lean `String`; the Python string methods used by the
    source (`startswith`, `replace`, `split(":")`, `rstrip(":")`, `strip()`)
    are defined here with Python's documented semantics.
  * `hashlib.sha256(...).hexdigest()` is implemented as a pure function over
    `Nat` (32-bit words represented as `Nat` with explicit `% 2^32`).
  * The MotherDuck tables become lists of row structures; SQL upsert/delete
    become list operations; database I/O failures are outside the model.
-/

namespace DecodeDbt

/-! ### Python string primitives -/

/-- Python `s.startswith(pre)`. -/
def pyStartsWith (s pre : String) : Bool := pre.data.isPrefixOf s.data

/-- Worker for `pyReplace`: replace every non-overlapping occurrence of `pat`
(non-empty) left to right, with enough fuel to scan the whole string. -/
def replaceAux (pat repl : List Char) : Nat → List Char → List Char
  | _, [] => []
  | 0, s => s
  | fuel + 1, c :: cs =>
    if pat.isPrefixOf (c :: cs) then repl ++ replaceAux pat repl fuel ((c :: cs).drop pat.length)
    else c :: replaceAux pat repl fuel cs

/-- Python `s.replace(pat, repl)` (all occurrences, left to right). -/
def pyReplace (s pat repl : String) : String :=
  ⟨replaceAux pat.data repl.data s.data.length s.data⟩

/-- Worker for `pySplitColon`. -/
def splitColonCore : List Char → List Char → List (List Char)
  | acc, [] => [acc.reverse]
  | acc, c :: cs =>
    if c == ':' then acc.reverse :: splitColonCore [] cs else splitColonCore (c :: acc) cs

/-- Python `s.split(":")`. -/
def pySplitColon (s : String) : List String := (splitColonCore [] s.data).map (⟨·⟩)

/-- Python `s.rstrip(":")`. -/
def pyRstripColon (s : String) : String := ⟨(s.data.reverse.dropWhile (· == ':')).reverse⟩

/-- The whitespace set stripped by Python `str.strip()`. -/
def pyIsSpace (c : Char) : Bool :=
  c == ' ' || c == '\t' || c == '\n' || c == '\r' || c == '\x0b' || c == '\x0c'

/-- Python `s.strip()`. -/
def pyStrip (s : String) : String :=
  ⟨((s.data.dropWhile pyIsSpace).reverse.dropWhile pyIsSpace).reverse⟩

/-! ### SHA-256 (`hashlib.sha256(...).hexdigest()`)

Pure implementation over `Nat`; 32-bit words are `Nat` values kept below
`2 ^ 32` with explicit modulus.  Bitwise operations are defined by binary
recursion on 32 bits of fuel so that everything reduces in the kernel. -/

/-- `2 ^ 32`. -/
def M32 : Nat := 4294967296

/-- Addition modulo `2 ^ 32`. -/
def add32 (a b : Nat) : Nat := (a + b) % M32

/-- Bitwise xor computed digit by digit with fuel. -/
def xorB : Nat → Nat → Nat → Nat
  | 0, _, _ => 0
  | f + 1, a, b => (if a % 2 == b % 2 then 0 else 1) + 2 * xorB f (a / 2) (b / 2)

/-- Bitwise and computed digit by digit with fuel. -/
def andB : Nat → Nat → Nat → Nat
  | 0, _, _ => 0
  | f + 1, a, b => a % 2 * (b % 2) + 2 * andB f (a / 2) (b / 2)

/-- 32-bit xor. -/
def xor32 (a b : Nat) : Nat := xorB 32 a b

/-- 32-bit and. -/
def and32 (a b : Nat) : Nat := andB 32 a b

/-- 32-bit complement. -/
def not32 (a : Nat) : Nat := M32 - 1 - a % M32

/-- Rotate a 32-bit word right by `k` bits. -/
def rotr (x k : Nat) : Nat := (x % M32 / 2 ^ k + x % M32 % 2 ^ k * 2 ^ (32 - k)) % M32

/-- Logical shift right. -/
def shr (x k : Nat) : Nat := x % M32 / 2 ^ k

/-- UTF-8 encoding of one code point. -/
def utf8Bytes (c : Nat) : List Nat :=
  if c < 128 then [c]
  else if c < 2048 then [192 + c / 64, 128 + c % 64]
  else if c < 65536 then [224 + c / 4096, 128 + c / 64 % 64, 128 + c % 64]
  else [240 + c / 262144, 128 + c / 4096 % 64, 128 + c / 64 % 64, 128 + c % 64]

/-- UTF-8 bytes of a string (Python `s.encode()`). -/
def strBytes (s : String) : List Nat := (s.data.map (fun c => utf8Bytes c.toNat)).flatten

/-- The eight-byte big-endian encoding of the message bit length. -/
def lenBytes (n : Nat) : List Nat :=
  [n / 72057594037927936 % 256, n / 281474976710656 % 256, n / 1099511627776 % 256,
   n / 4294967296 % 256, n / 16777216 % 256, n / 65536 % 256, n / 256 % 256, n % 256]

/-- SHA-256 padding: `0x80`, zeros to 56 mod 64, then the 64-bit bit length. -/
def padMsg (bytes : List Nat) : List Nat :=
  bytes ++ [128] ++ List.replicate ((119 - bytes.length % 64) % 64) 0 ++ lenBytes (bytes.length * 8)

/-- Split a byte list into 64-byte blocks (fuel-driven). -/
def chunksAux : Nat → List Nat → List (List Nat)
  | 0, _ => []
  | _, [] => []
  | fuel + 1, l => l.take 64 :: chunksAux fuel (l.drop 64)

/-- Big-endian 32-bit words from bytes. -/
def toWordsBE : List Nat → List Nat
  | b0 :: b1 :: b2 :: b3 :: rest => (((b0 * 256 + b1) * 256 + b2) * 256 + b3) :: toWordsBE rest
  | _ => []

/-- Message-schedule sigma functions. -/
def sig0 (x : Nat) : Nat := xor32 (xor32 (rotr x 7) (rotr x 18)) (shr x 3)

/-- Message-schedule sigma functions. -/
def sig1 (x : Nat) : Nat := xor32 (xor32 (rotr x 17) (rotr x 19)) (shr x 10)

/-- Compression sigma functions. -/
def bigSig0 (x : Nat) : Nat := xor32 (xor32 (rotr x 2) (rotr x 13)) (rotr x 22)

/-- Compression sigma functions. -/
def bigSig1 (x : Nat) : Nat := xor32 (xor32 (rotr x 6) (rotr x 11)) (rotr x 25)

/-- SHA-256 choice function. -/
def ch (e f g : Nat) : Nat := xor32 (and32 e f) (and32 (not32 e) g)

/-- SHA-256 majority function. -/
def maj (a b c : Nat) : Nat := xor32 (xor32 (and32 a b) (and32 a c)) (and32 b c)

/-- Extend 16 words to the 64-word message schedule. -/
def extendAux : Nat → List Nat → List Nat
  | 0, w => w
  | f + 1, w =>
    let n := w.length
    extendAux f (w ++ [add32 (add32 (w.getD (n - 16) 0) (sig1 (w.getD (n - 2) 0)))
      (add32 (w.getD (n - 7) 0) (sig0 (w.getD (n - 15) 0)))])

/-- The eight 32-bit working variables / digest state. -/
structure H8 where
  a : Nat
  b : Nat
  c : Nat
  d : Nat
  e : Nat
  f : Nat
  g : Nat
  h : Nat
deriving DecidableEq

/-- The SHA-256 round constants (FIPS 180-4 §4.2.2, written in decimal). -/
def K256 : List Nat :=
  [1116352408, 1899447441, 3049323471, 3921009573, 961987163,
   1508970993, 2453635748, 2870763221, 3624381080, 310598401,
   607225278, 1426881987, 1925078388, 2162078206, 2614888103,
   3248222580, 3835390401, 4022224774, 264347078, 604807628,
   770255983, 1249150122, 1555081692, 1996064986, 2554220882,
   2821834349, 2952996808, 3210313671, 3336571891, 3584528711,
   113926993, 338241895, 666307205, 773529912, 1294757372,
   1396182291, 1695183700, 1986661051, 2177026350, 2456956037,
   2730485921, 2820302411, 3259730800, 3345764771, 3516065817,
   3600352804, 4094571909, 275423344, 430227734, 506948616,
   659060556, 883997877, 958139571, 1322822218, 1537002063,
   1747873779, 1955562222, 2024104815, 2227730452, 2361852424,
   2428436474, 2756734187, 3204031479, 3329325298]

/-- The SHA-256 initial hash value (FIPS 180-4 §5.3.3, written in decimal). -/
def H0 : H8 :=
  ⟨1779033703, 3144134277, 1013904242, 2773480762,
   1359893119, 2600822924, 528734635, 1541459225⟩

/-- One compression round. -/
def roundStep (s : H8) (kw : Nat × Nat) : H8 :=
  let t1 := add32 s.h (add32 (bigSig1 s.e) (add32 (ch s.e s.f s.g) (add32 kw.1 kw.2)))
  let t2 := add32 (bigSig0 s.a) (maj s.a s.b s.c)
  ⟨add32 t1 t2, s.a, s.b, s.c, add32 s.d t1, s.e, s.f, s.g⟩

/-- Compress one 64-byte block into the running digest. -/
def compressBlock (hv : H8) (block : List Nat) : H8 :=
  let w := extendAux 48 (toWordsBE block)
  let s := (K256.zip w).foldl roundStep hv
  ⟨add32 hv.a s.a, add32 hv.b s.b, add32 hv.c s.c, add32 hv.d s.d,
   add32 hv.e s.e, add32 hv.f s.f, add32 hv.g s.g, add32 hv.h s.h⟩

/-- SHA-256 of a byte list. -/
def sha256Bytes (msg : List Nat) : H8 :=
  let padded := padMsg msg
  (chunksAux padded.length padded).foldl compressBlock H0

/-- Lowercase hexadecimal digit. -/
def hexDigit (d : Nat) : Char := if d < 10 then Char.ofNat (48 + d) else Char.ofNat (87 + d % 16)

/-- Eight lowercase hex characters of a 32-bit word. -/
def hexWord (w : Nat) : List Char :=
  [hexDigit (w / 268435456 % 16), hexDigit (w / 16777216 % 16), hexDigit (w / 1048576 % 16),
   hexDigit (w / 65536 % 16), hexDigit (w / 4096 % 16), hexDigit (w / 256 % 16),
   hexDigit (w / 16 % 16), hexDigit (w % 16)]

/-- `hashlib.sha256(s.encode()).hexdigest()`. -/
def sha256hex (s : String) : String :=
  let d := sha256Bytes (strBytes s)
  ⟨hexWord d.a ++ hexWord d.b ++ hexWord d.c ++ hexWord d.d ++
   hexWord d.e ++ hexWord d.f ++ hexWord d.g ++ hexWord d.h⟩

set_option maxRecDepth 100000 in
/-- Sanity anchor: the implementation reproduces the published SHA-256 test
vector for `"abc"` (FIPS 180-4, appendix B.1). -/
theorem sha256hex_abc :
    sha256hex "abc" = "ba7816bf8f01cfea414140de5dae2223b00361a396177a9cb410ff61f20015ad" := by
  decide

/-- The hex digest always has 64 characters, whatever the digest words are. -/
theorem sha256hex_length (s : String) : (sha256hex s).length = 64 := by
  simp [sha256hex, String.length, hexWord]

/-! ### The MotherDuck database state

`src/app-railway.py` lines 62-113 create four tables; each becomes a list of
rows.  `ON CONFLICT` upserts are modelled by `upsertBy` (replace the first
row matching the primary-key predicate, else append); `fetchone` is
`List.find?`; SQL `DELETE` is `List.filter` on the negated predicate. -/

/-- A row of `users` (username PK, password_hash, email, schema_name, created_at). -/
structure UserRow where
  username : String
  password_hash : String
  email : String
  schema_name : String
  created_at : String
deriving DecidableEq

/-- A row of `learner_progress` (PK (username, lesson_id)). -/
structure ProgressRow where
  username : String
  lesson_id : String
  lesson_progress : Int
  completed_steps : List String
  models_executed : List String
  queries_run : Int
  last_updated : String
deriving DecidableEq

/-- A row of `user_sessions` (session_token PK).  `session_data` is the JSON
blob `{username, created_at}` written by `authenticate`; `created_at` is the
table column of the same name. -/
structure SessionRow where
  session_token : String
  data_username : String
  data_created_at : String
  created_at : String
deriving DecidableEq

/-- A row of `model_edits` (PK (username, lesson_id, model_name)). -/
structure ModelEditRow where
  username : String
  lesson_id : String
  model_name : String
  model_sql : String
  last_updated : String
deriving DecidableEq

/-- The whole MotherDuck share. -/
structure DB where
  users : List UserRow
  learner_progress : List ProgressRow
  user_sessions : List SessionRow
  model_edits : List ModelEditRow
deriving DecidableEq

/-- The serialized values exchanged through the storage API.  Python passes
JSON strings; `json.dumps`/`json.loads` is a lossless round trip, so values
are modelled in parsed form, one constructor per table shape (the shapes the
application writes). -/
inductive StorageValue where
  | user (username password_hash email schema created_at : String)
  | progress (lesson_progress : Int) (completed_steps models_executed : List String)
      (queries_run : Int) (last_updated : String)
  | session (username created_at : String)
  | model (model_sql last_updated : String)
deriving DecidableEq

/-- The `{'key': ..., 'value': ..., 'shared': ...}` dict returned by `get`/`set`. -/
structure GetResult where
  key : String
  value : StorageValue
  shared : Bool
deriving DecidableEq

/-- The `{'key': ..., 'deleted': True, 'shared': ...}` dict returned by `delete`. -/
structure DeleteAck where
  key : String
  deleted : Bool
  shared : Bool
deriving DecidableEq

/-- The `{'keys': ..., 'prefix': ..., 'shared': ...}` dict returned by `list`
(`pre` is the source's `prefix` field). -/
structure ListResult where
  keys : List String
  pre : Option String
  shared : Bool
deriving DecidableEq

/-- Replace the first row satisfying `p` using `upd`, or append `ins` when no
row matches: the behaviour of `INSERT ... ON CONFLICT ... DO UPDATE` on a
table keyed by `p`. -/
def upsertBy (p : α → Bool) (upd : α → α) (ins : α) : List α → List α
  | [] => [ins]
  | x :: xs => if p x then upd x :: xs else x :: upsertBy p upd ins xs

/-- All keys under which `get` can find data, in table order. -/
def dbKeys (db : DB) : List String :=
  db.users.map (fun r => "user:" ++ r.username)
    ++ db.learner_progress.map (fun r => "progress:" ++ r.username ++ ":" ++ r.lesson_id)
    ++ db.user_sessions.map (fun r => "session:" ++ r.session_token)
    ++ db.model_edits.map
      (fun r => "model:" ++ r.username ++ ":" ++ r.lesson_id ++ ":" ++ r.model_name)

namespace MotherDuckStorage

/-- `MotherDuckStorage.get` (src/app-railway.py lines 117-201).  The key is
parsed by prefix exactly as the source does (`replace` removes every
occurrence, `split(":")` must yield the PK arity); a missing row, an
unrecognized key, or a malformed arity returns `None`.  The `::VARCHAR`
casts of timestamps are modelled as returning the stored string. -/
def get (db : DB) (key : String) (shared : Bool) : Option GetResult :=
  if pyStartsWith key "user:" then
    let username := pyReplace key "user:" ""
    match db.users.find? (fun r => r.username == username) with
    | some r =>
        some ⟨key, .user r.username r.password_hash r.email r.schema_name r.created_at, shared⟩
    | none => none
  else if pyStartsWith key "progress:" then
    match pySplitColon (pyReplace key "progress:" "") with
    | [username, lesson_id] =>
      match db.learner_progress.find? (fun r => r.username == username && r.lesson_id == lesson_id) with
      | some r =>
          some ⟨key, .progress r.lesson_progress r.completed_steps r.models_executed
            r.queries_run r.last_updated, shared⟩
      | none => none
    | _ => none
  else if pyStartsWith key "session:" then
    let tok := pyReplace key "session:" ""
    match db.user_sessions.find? (fun r => r.session_token == tok) with
    | some r => some ⟨key, .session r.data_username r.created_at, shared⟩
    | none => none
  else if pyStartsWith key "model:" then
    match pySplitColon (pyReplace key "model:" "") with
    | [username, lesson_id, model_name] =>
      match db.model_edits.find?
          (fun r => r.username == username && r.lesson_id == lesson_id && r.model_name == model_name) with
      | some r => some ⟨key, .model r.model_sql r.last_updated, shared⟩
      | none => none
    | _ => none
  else none

/-- `MotherDuckStorage.set` (src/app-railway.py lines 203-298).  Note from the
source: the `users` upsert writes the value's own `username` field and, on
conflict, updates only `password_hash` and `email` (lines 213-226); a key with
no recognized table, or a recognized key whose `split` has the wrong arity,
writes nothing yet still returns the acknowledgement (lines 294-295).  A value
whose shape does not match the branch's table raises inside the `try` in
Python and yields `None`; such mismatched writes are modelled as `(none, db)`.
-/
def set (db : DB) (key : String) (value : StorageValue) (shared : Bool) :
    Option GetResult × DB :=
  if pyStartsWith key "user:" then
    match value with
    | .user vu vh ve vs vc =>
        let users' :=
          upsertBy (fun r => r.username == vu)
            (fun r => { r with password_hash := vh, email := ve })
            ⟨vu, vh, ve, vs, vc⟩ db.users
        (some ⟨key, value, shared⟩, { db with users := users' })
    | _ => (none, db)
  else if pyStartsWith key "progress:" then
    match pySplitColon (pyReplace key "progress:" "") with
    | [username, lesson_id] =>
      match value with
      | .progress lp cs me qr lu =>
          let rows' :=
            upsertBy (fun r => r.username == username && r.lesson_id == lesson_id)
              (fun _ => ⟨username, lesson_id, lp, cs, me, qr, lu⟩)
              ⟨username, lesson_id, lp, cs, me, qr, lu⟩ db.learner_progress
          (some ⟨key, value, shared⟩, { db with learner_progress := rows' })
      | _ => (none, db)
    | _ => (some ⟨key, value, shared⟩, db)
  else if pyStartsWith key "session:" then
    let tok := pyReplace key "session:" ""
    match value with
    | .session su sc =>
        let rows' :=
          upsertBy (fun r => r.session_token == tok)
            (fun _ => ⟨tok, su, sc, sc⟩) ⟨tok, su, sc, sc⟩ db.user_sessions
        (some ⟨key, value, shared⟩, { db with user_sessions := rows' })
    | _ => (none, db)
  else if pyStartsWith key "model:" then
    match pySplitColon (pyReplace key "model:" "") with
    | [username, lesson_id, model_name] =>
      match value with
      | .model ms lu =>
          let rows' :=
            upsertBy (fun r => r.username == username && r.lesson_id == lesson_id
                && r.model_name == model_name)
              (fun _ => ⟨username, lesson_id, model_name, ms, lu⟩)
              ⟨username, lesson_id, model_name, ms, lu⟩ db.model_edits
          (some ⟨key, value, shared⟩, { db with model_edits := rows' })
      | _ => (none, db)
    | _ => (some ⟨key, value, shared⟩, db)
  else (some ⟨key, value, shared⟩, db)

/-- `MotherDuckStorage.delete` (src/app-railway.py lines 300-331).  Only
`user:`, `progress:` and `session:` keys reach a `DELETE`; in particular there
is no branch for `model:` keys, which are left untouched, and the
acknowledgement is returned for every key. -/
def delete (db : DB) (key : String) (shared : Bool) : Option DeleteAck × DB :=
  if pyStartsWith key "user:" then
    let username := pyReplace key "user:" ""
    (some ⟨key, true, shared⟩,
     { db with users := db.users.filter (fun r => !(r.username == username)) })
  else if pyStartsWith key "progress:" then
    match pySplitColon (pyReplace key "progress:" "") with
    | [username, lesson_id] =>
        let rows' :=
          db.learner_progress.filter
            (fun r => !(r.username == username && r.lesson_id == lesson_id))
        (some ⟨key, true, shared⟩, { db with learner_progress := rows' })
    | _ => (some ⟨key, true, shared⟩, db)
  else if pyStartsWith key "session:" then
    let tok := pyReplace key "session:" ""
    (some ⟨key, true, shared⟩,
     { db with user_sessions := db.user_sessions.filter (fun r => !(r.session_token == tok)) })
  else
    (some ⟨key, true, shared⟩, db)

/-- `MotherDuckStorage.list` (src/app-railway.py lines 333-353).  Only a
truthy argument starting with `progress:` triggers a `SELECT`; the username is
recovered with `replace` + `rstrip(":")` and the whole row set of that
username is turned back into keys.  Every other argument yields `[]`. -/
def list (db : DB) (pre : Option String) (shared : Bool) : ListResult :=
  match pre with
  | some p =>
    if !(p == "") && pyStartsWith p "progress:" then
      let username := pyRstripColon (pyReplace p "progress:" "")
      ⟨(db.learner_progress.filter (fun r => r.username == username)).map
        (fun r => "progress:" ++ r.username ++ ":" ++ r.lesson_id), some p, shared⟩
    else ⟨[], some p, shared⟩
  | none => ⟨[], none, shared⟩

end MotherDuckStorage

/-! ### The file/pickle-backed storage -/

/-- Modelled from the spec: the file/pickle-backed storage implementation is
not under src/ (spec §4.1 "File/pickle-backed: each key maps to one file on
local disk, partitioned into `shared`/`private` subdirectories; `list`
enumerates filenames").  One file per `(shared, key)` pair holding the
serialized value. -/
structure FileStorage where
  entries : List ((Bool × String) × StorageValue)
deriving DecidableEq

namespace FileStorage

/-- Modelled from the spec: writing a key's file (create or overwrite). -/
def set (fs : FileStorage) (key : String) (value : StorageValue) (shared : Bool) :
    Option GetResult × FileStorage :=
  (some ⟨key, value, shared⟩,
   ⟨upsertBy (fun e => e.1 == (shared, key)) (fun _ => ((shared, key), value))
      ((shared, key), value) fs.entries⟩)

/-- Modelled from the spec: reading a key's file; "not found" is `none`. -/
def get (fs : FileStorage) (key : String) (shared : Bool) : Option GetResult :=
  match fs.entries.find? (fun e => e.1 == (shared, key)) with
  | some e => some ⟨key, e.2, shared⟩
  | none => none

end FileStorage

/-! ### UserManager (src/app-railway.py lines 375-507) and helpers

`st.session_state` and wall-clock time are request-ambient inputs in the
source; they appear as explicit arguments (`now` is the ISO string
`datetime.now().isoformat()` of the moment of the call). -/

/-- The parsed user JSON handed around by `get_user` / `authenticate`. -/
structure UserRec where
  username : String
  password_hash : String
  email : String
  schema : String
  created_at : String
deriving DecidableEq

/-- The in-memory progress dict (`get_progress` result / `save_progress`
argument). -/
structure ProgressData where
  lesson_progress : Int
  completed_steps : List String
  models_executed : List String
  queries_run : Int
  last_updated : Option String
deriving DecidableEq

/-- Outcome of `UserManager.authenticate`: `(False, message)` or
`(True, user)`. -/
inductive AuthResult where
  | failure (message : String)
  | success (user : UserRec)
deriving DecidableEq

namespace UserManager

/-- `UserManager.hash_password` (line 377-379). -/
def hash_password (password : String) : String := sha256hex password

/-- `UserManager.get_user` (lines 411-421). -/
def get_user (db : DB) (username : String) : Option UserRec :=
  match MotherDuckStorage.get db ("user:" ++ username) false with
  | some r =>
    match r.value with
    | .user u h e s c => some ⟨u, h, e, s, c⟩
    | _ => none
  | none => none

/-- The schema-name expression of `create_user` (src/app-railway.py line 395):
`f"learner_{hashlib.sha256(username.encode()).hexdigest()[:8]}"`. -/
def create_user_schema (username : String) : String :=
  "learner_" ++ (sha256hex username).take 8

/-- `UserManager.create_user` (lines 381-409). -/
def create_user (db : DB) (username password email now : String) : (Bool × String) × DB :=
  match get_user db username with
  | some _ => ((false, "Username already exists"), db)
  | none =>
    let user_data : StorageValue :=
      .user username (hash_password password) email (create_user_schema username) now
    match MotherDuckStorage.set db ("user:" ++ username) user_data false with
    | (some _, db') => ((true, "Account created successfully"), db')
    | (none, db') => ((false, "Failed to create account"), db')

/-- `UserManager.authenticate` (lines 423-452).  On success a session token
is derived from `username + now` and the session row is persisted; on any
failure the database is returned untouched. -/
def authenticate (db : DB) (username password now : String) : AuthResult × DB :=
  match get_user db username with
  | none => (.failure "User not found", db)
  | some user =>
    if user.password_hash == hash_password password then
      let session_token := sha256hex (username ++ now)
      let db' := (MotherDuckStorage.set db ("session:" ++ session_token)
        (.session username now) false).2
      (.success user, db')
    else (.failure "Invalid password", db)

/-- `UserManager.save_progress` (lines 454-468): stamps `last_updated := now`
and writes unconditionally; reports whether the storage call returned an
acknowledgement. -/
def save_progress (db : DB) (username lesson_id : String) (pd : ProgressData) (now : String) :
    Bool × DB :=
  let key := "progress:" ++ username ++ ":" ++ lesson_id
  let v : StorageValue :=
    .progress pd.lesson_progress pd.completed_steps pd.models_executed pd.queries_run now
  match MotherDuckStorage.set db key v false with
  | (some _, db') => (true, db')
  | (none, db') => (false, db')

/-- `UserManager.get_progress` (lines 470-489): the stored record, or the
zero-valued default when the key is absent. -/
def get_progress (db : DB) (username lesson_id : String) : ProgressData :=
  match MotherDuckStorage.get db ("progress:" ++ username ++ ":" ++ lesson_id) false with
  | some r =>
    match r.value with
    | .progress lp cs me qr lu => ⟨lp, cs, me, qr, some lu⟩
    | _ => ⟨0, [], [], 0, none⟩  -- unreachable: a progress key parses to a progress value
  | none => ⟨0, [], [], 0, none⟩

end UserManager

/-- The in-memory record transformation of `update_progress`
(src/app-railway.py lines 1523-1531): add the increment with
`min(100, current + increment)` and append the step name when new. -/
def apply_update (p : ProgressData) (increment : Int) (step_name : Option String) :
    ProgressData :=
  let p1 := { p with lesson_progress := min 100 (p.lesson_progress + increment) }
  match step_name with
  | some s =>
    if s ∈ p1.completed_steps then p1
    else { p1 with completed_steps := p1.completed_steps ++ [s] }
  | none => p1

/-- `update_progress` (src/app-railway.py lines 1504-1541).  `username` and
`lesson_id` come from `st.session_state`; a falsy (empty) one aborts with
Python's implicit `None` (modelled as the `none` first component).  The
record transformation is `apply_update` above; the result is
`save_progress`'s success flag. -/
def update_progress (db : DB) (username lesson_id : String) (increment : Int)
    (step_name : Option String) (now : String) : Option Bool × DB :=
  if username == "" || lesson_id == "" then (none, db)
  else
    let p0 := UserManager.get_progress db username lesson_id
    let p2 := apply_update p0 increment step_name
    let (ok, db') := UserManager.save_progress db username lesson_id p2 now
    (some ok, db')

/-- A sequence of `update_progress` calls against the same `(user, lesson)`. -/
def run_updates (db : DB) (username lesson_id : String)
    (calls : List (Int × Option String)) (now : String) : DB :=
  calls.foldl (fun d c => (update_progress d username lesson_id c.1 c.2 now).2) db

/-- The identity `check_and_restore_session` writes into `st.session_state`
on success (`learner_id`, `learner_schema`). -/
structure RestoredIdentity where
  learner_id : String
  learner_schema : String
deriving DecidableEq

/-- `check_and_restore_session` (src/app-railway.py lines 1320-1354).
`authenticated` is the pre-existing `st.session_state['authenticated']` flag,
`session_token` the `?session=` query parameter, `parseIso` the
`datetime.fromisoformat` parse (in seconds; `none` models a raised
`ValueError`, swallowed by the outer `except`), and `now` the current time in
seconds.  A token is honoured only when strictly younger than 86400 seconds
and its username still resolves to a user record. -/
def check_and_restore_session (db : DB) (authenticated : Bool) (session_token : Option String)
    (parseIso : String → Option Int) (now : Int) : Bool × Option RestoredIdentity :=
  if authenticated then (true, none)
  else
    match session_token with
    | none => (false, none)
    | some tok =>
      match MotherDuckStorage.get db ("session:" ++ tok) false with
      | some r =>
        match r.value with
        | .session su sc =>
          match parseIso sc with
          | some created =>
            if now - created < 86400 then
              match UserManager.get_user db su with
              | some u => (true, some ⟨u.username, u.schema⟩)
              | none => (false, none)
            else (false, none)
          | none => (false, none)
        | _ => (false, none)
      | none => (false, none)

/-- `set_learner_id` (src/decode_dbt/app.py lines 28-38): strips the raw
input, and for a non-empty id stores `(learner_id, learner_schema)` with the
schema `f"learner_{hashlib.sha256(learner_id.encode()).hexdigest()[:8]}"`. -/
def set_learner_id (input_learner_id : String) : Option (String × String) :=
  let learner_id := pyStrip input_learner_id
  if learner_id == "" then none
  else some (learner_id, "learner_" ++ (sha256hex learner_id).take 8)

/-! ### FastAPI backend dbt runner (src/decode_dbt/backend/dbt_runner.py) -/

/-- The relevant fields of Python's `subprocess.run` result. -/
structure SubprocessResult where
  returncode : Int
  stdout : String
  stderr : String
deriving DecidableEq

/-- The `{"success": ..., "logs": ...}` dict returned by the backend runner. -/
structure DbtRunResult where
  success : Bool
  logs : String
deriving DecidableEq

/-- `run_dbt_command` (src/decode_dbt/backend/dbt_runner.py lines 8-32).
`motherduck_token` is the environment lookup (`none` = unset; the empty
string is falsy in Python and also raises); `result` is the completed
subprocess.  Success is `returncode == 0` and the logs are always
`stdout + "\n" + stderr`. -/
def run_dbt_command (motherduck_token : Option String) (result : SubprocessResult) :
    Except String DbtRunResult :=
  match motherduck_token with
  | none => .error "❌ Missing MOTHERDUCK_TOKEN. Set it in Streamlit secrets or local .env."
  | some t =>
    if t == "" then .error "❌ Missing MOTHERDUCK_TOKEN. Set it in Streamlit secrets or local .env."
    else .ok ⟨result.returncode == 0, result.stdout ++ "\n" ++ result.stderr⟩

/-! ### Generic lemmas about the table operations -/

/-- `find?` after an upsert returns the updated (or freshly inserted) row,
provided the predicate holds of the insert and is preserved by the update. -/
theorem find?_upsertBy (p : α → Bool) (upd : α → α) (ins : α) (l : List α)
    (hins : p ins = true) (hupd : ∀ x, p x = true → p (upd x) = true) :
    (upsertBy p upd ins l).find? p =
      some (match l.find? p with | some x => upd x | none => ins) := by
  induction l with
  | nil => simp [upsertBy, List.find?, hins]
  | cons x xs ih =>
    cases h : p x with
    | true => simp [upsertBy, h, List.find?, hupd x h]
    | false => simp [upsertBy, h, List.find?, ih]

/-- Deleting every row matching `p` leaves nothing for `find? p`. -/
theorem find?_filter_neg (p : α → Bool) (l : List α) :
    (l.filter (fun x => !p x)).find? p = none := by
  induction l with
  | nil => rfl
  | cons x xs ih =>
    cases h : p x with
    | true => simp [List.filter, h, ih]
    | false => simp [List.filter, h, List.find?, ih]

/-- A hash digest never equals a string of the wrong length. -/
theorem hash_password_ne_of_length (p s : String) (h : s.length ≠ 64) :
    UserManager.hash_password p ≠ s := by
  intro he
  exact h (by rw [← he, UserManager.hash_password, sha256hex_length])

/-! ### Claim C9 -/

/-- C9: for every key that starts with none of the four recognized table
markers, `MotherDuckStorage.set` returns a success acknowledgement carrying
the key and value while leaving the database untouched, and a subsequent
`get` of that key returns `None`, with no error reported. -/
theorem C9_unrecognized_key_set_get (db : DB) (key : String) (v : StorageValue) (sh : Bool)
    (hu : pyStartsWith key "user:" = false)
    (hp : pyStartsWith key "progress:" = false)
    (hs : pyStartsWith key "session:" = false)
    (hm : pyStartsWith key "model:" = false) :
    MotherDuckStorage.set db key v sh = (some ⟨key, v, sh⟩, db)
      ∧ MotherDuckStorage.get db key sh = none := by
  constructor
  · simp [MotherDuckStorage.set, hu, hp, hs, hm]
  · simp [MotherDuckStorage.get, hu, hp, hs, hm]

/-- Witness for C9 at the concrete key `"foo:bar"`. -/
theorem C9_unrecognized_key_set_get_witness :
    MotherDuckStorage.set ⟨[], [], [], []⟩ "foo:bar" (.model "SELECT 1" "t0") true
        = (some ⟨"foo:bar", .model "SELECT 1" "t0", true⟩, ⟨[], [], [], []⟩)
      ∧ MotherDuckStorage.get ⟨[], [], [], []⟩ "foo:bar" true = none :=
  C9_unrecognized_key_set_get ⟨[], [], [], []⟩ "foo:bar" (.model "SELECT 1" "t0") true
    (by decide) (by decide) (by decide) (by decide)

/-! ### Claim C10 -/

/-- C10: with a usable token, the backend's `run_dbt_command` reports success
exactly when the dbt subprocess exits with return code 0, and its `logs`
field is always `stdout + "\n" + stderr`, whatever the exit code. -/
theorem C10_run_dbt_success_iff (t : String) (res : SubprocessResult) (ht : t ≠ "") :
    run_dbt_command (some t) res
        = .ok ⟨res.returncode == 0, res.stdout ++ "\n" ++ res.stderr⟩
      ∧ ((res.returncode == 0) = true ↔ res.returncode = 0) := by
  refine ⟨?_, beq_iff_eq⟩
  simp [run_dbt_command, ht]

/-- Witness for C10 on a failing subprocess (`returncode = 2`). -/
theorem C10_run_dbt_success_iff_witness :
    run_dbt_command (some "tok") ⟨2, "out", "err"⟩
        = .ok ⟨(2 : Int) == 0, "out" ++ "\n" ++ "err"⟩
      ∧ (((2 : Int) == 0) = true ↔ (2 : Int) = 0) :=
  C10_run_dbt_success_iff "tok" ⟨2, "out", "err"⟩ (by decide)

/-! ### Claim C5 -/

/-- C5: `authenticate` with a password whose hash differs from the stored
`password_hash` fails and leaves the database (hence the session table)
untouched; an unknown username fails with "User not found", also without any
write. -/
theorem C5_authenticate_failure :
    (∀ (db : DB) (username password now : String) (urec : UserRec),
        UserManager.get_user db username = some urec →
        UserManager.hash_password password ≠ urec.password_hash →
        UserManager.authenticate db username password now = (.failure "Invalid password", db))
  ∧ (∀ (db : DB) (username password now : String),
        UserManager.get_user db username = none →
        UserManager.authenticate db username password now = (.failure "User not found", db)) := by
  constructor
  · intro db username password now urec hget hne
    simp [UserManager.authenticate, hget, beq_eq_false_iff_ne.mpr (Ne.symm hne)]
  · intro db username password now hget
    simp [UserManager.authenticate, hget]

/-- Witness for C5: a stored record whose hash slot cannot match any digest,
and an unknown user on an empty database. -/
theorem C5_authenticate_failure_witness :
    UserManager.authenticate ⟨[⟨"alice", "x", "e", "s", "c"⟩], [], [], []⟩ "alice" "pw" "t0"
        = (.failure "Invalid password", ⟨[⟨"alice", "x", "e", "s", "c"⟩], [], [], []⟩)
      ∧ UserManager.authenticate ⟨[], [], [], []⟩ "bob" "pw" "t0"
        = (.failure "User not found", ⟨[], [], [], []⟩) :=
  ⟨C5_authenticate_failure.1 ⟨[⟨"alice", "x", "e", "s", "c"⟩], [], [], []⟩ "alice" "pw" "t0"
      ⟨"alice", "x", "e", "s", "c"⟩ (by decide) (hash_password_ne_of_length "pw" "x" (by decide)),
   C5_authenticate_failure.2 ⟨[], [], [], []⟩ "bob" "pw" "t0" (by decide)⟩

/-! ### Claim C6 -/

/-- C6: the schema name is a pure function of the username alone — re-derived
at registration (`create_user`, src/app-railway.py) and at learner setup
(`set_learner_id`, src/decode_dbt/app.py) it is the same string, namely
`"learner_"` followed by the first 8 hex characters of the SHA-256 digest of
the username.  (Determinism is immediate: both sites apply the same pure
function to the username.) -/
theorem C6_schema_deterministic :
    (∀ username : String,
        UserManager.create_user_schema username = "learner_" ++ (sha256hex username).take 8)
  ∧ (∀ raw learner_id schema : String,
        set_learner_id raw = some (learner_id, schema) →
        schema = UserManager.create_user_schema learner_id) := by
  refine ⟨fun _ => rfl, ?_⟩
  intro raw learner_id schema h
  unfold set_learner_id at h
  by_cases he : (pyStrip raw == "") = true
  · simp [he] at h
  · rw [if_neg he] at h
    obtain ⟨h1, h2⟩ := Prod.mk.injEq .. ▸ Option.some.injEq .. ▸ h
    rw [← h1, ← h2, UserManager.create_user_schema]

set_option maxRecDepth 100000 in
/-- Witness for C6: the un-stripped input `" alice "` resolves to learner id
`"alice"` whose derived schema is the literal first-8 digest prefix. -/
theorem C6_schema_deterministic_witness :
    "learner_2bd806c9" = UserManager.create_user_schema "alice" :=
  C6_schema_deterministic.2 " alice " "alice" "learner_2bd806c9" (by decide)

/-! ### Claim C8 -/

/-- C8: session restoration enforces the 24-hour expiry at read time — a
stored token whose `created_at` column parses to a time 86400 seconds or more
before `now` does not authenticate, while a strictly younger token whose
session username still resolves to a user record restores that identity. -/
theorem C8_session_expiry :
    (∀ (db : DB) (tok : String) (parseIso : String → Option Int) (now : Int)
        (su sc : String) (t : Int),
        MotherDuckStorage.get db ("session:" ++ tok) false
            = some ⟨"session:" ++ tok, .session su sc, false⟩ →
        parseIso sc = some t →
        86400 ≤ now - t →
        check_and_restore_session db false (some tok) parseIso now = (false, none))
  ∧ (∀ (db : DB) (tok : String) (parseIso : String → Option Int) (now : Int)
        (su sc : String) (t : Int) (urec : UserRec),
        MotherDuckStorage.get db ("session:" ++ tok) false
            = some ⟨"session:" ++ tok, .session su sc, false⟩ →
        parseIso sc = some t →
        now - t < 86400 →
        UserManager.get_user db su = some urec →
        check_and_restore_session db false (some tok) parseIso now
          = (true, some ⟨urec.username, urec.schema⟩)) := by
  constructor
  · intro db tok parseIso now su sc t hget hparse hexp
    simp [check_and_restore_session, hget, hparse, if_neg (by omega : ¬now - t < 86400)]
  · intro db tok parseIso now su sc t urec hget hparse hyoung huser
    simp [check_and_restore_session, hget, hparse, hyoung, huser]

/-- Witness for C8: one session row aged exactly 86400 seconds is rejected;
the same row at age 10 seconds restores the identity. -/
theorem C8_session_expiry_witness :
    check_and_restore_session ⟨[⟨"alice", "h", "e", "learner_x", "c"⟩], [],
        [⟨"tok1", "alice", "c0", "c0"⟩], []⟩ false (some "tok1")
        (fun s => if s == "c0" then some 0 else none) 86400 = (false, none)
      ∧ check_and_restore_session ⟨[⟨"alice", "h", "e", "learner_x", "c"⟩], [],
        [⟨"tok1", "alice", "c0", "c0"⟩], []⟩ false (some "tok1")
        (fun s => if s == "c0" then some 0 else none) 10
        = (true, some ⟨"alice", "learner_x"⟩) :=
  ⟨C8_session_expiry.1 ⟨[⟨"alice", "h", "e", "learner_x", "c"⟩], [],
      [⟨"tok1", "alice", "c0", "c0"⟩], []⟩ "tok1"
      (fun s => if s == "c0" then some 0 else none) 86400 "alice" "c0" 0
      (by decide) (by decide) (by decide),
   C8_session_expiry.2 ⟨[⟨"alice", "h", "e", "learner_x", "c"⟩], [],
      [⟨"tok1", "alice", "c0", "c0"⟩], []⟩ "tok1"
      (fun s => if s == "c0" then some 0 else none) 10 "alice" "c0" 0
      ⟨"alice", "h", "e", "learner_x", "c"⟩ (by decide) (by decide) (by decide) (by decide)⟩

/-! ### Claim C1 -/

/-- C1 counterexample: the claim "set followed by get returns the stored
value, for every key and value the backend accepts" fails on the relational
backend.  `set` on an existing `user:` row updates only `password_hash` and
`email` (`ON CONFLICT ... DO UPDATE`, src/app-railway.py lines 213-226), so a
perfectly well-formed value with a different `schema` comes back with the old
`schema_name` and `created_at`. -/
theorem C1_counterexample :
    (MotherDuckStorage.get
        (MotherDuckStorage.set ⟨[⟨"alice", "h1", "e1", "learner_a", "t1"⟩], [], [], []⟩
          "user:alice" (.user "alice" "h2" "e2" "learner_b" "t2") false).2
        "user:alice" false).map (fun r => r.value)
      = some (.user "alice" "h2" "e2" "learner_a" "t1")
    ∧ (StorageValue.user "alice" "h2" "e2" "learner_a" "t1")
      ≠ (.user "alice" "h2" "e2" "learner_b" "t2") := by
  constructor
  · decide
  · decide

/-- C1 (amended): `set` followed by `get` of the same key returns the stored
value for the file/pickle backend unconditionally, and for the relational
backend on every key it actually persists — `user:` keys whose value carries
the key's own username, provided any pre-existing row for that username
already has the value's `schema` and `created_at`; `progress:` and `model:`
keys of the right arity; and `session:` keys. -/
theorem C1_set_get_roundtrip :
    (∀ (fs : FileStorage) (k : String) (v : StorageValue) (sh : Bool),
        FileStorage.get (FileStorage.set fs k v sh).2 k sh = some ⟨k, v, sh⟩)
  ∧ (∀ (db : DB) (k vh ve vs vc : String) (sh : Bool),
        pyStartsWith k "user:" = true →
        (∀ r ∈ db.users, r.username = pyReplace k "user:" "" →
            r.schema_name = vs ∧ r.created_at = vc) →
        MotherDuckStorage.get
            (MotherDuckStorage.set db k (.user (pyReplace k "user:" "") vh ve vs vc) sh).2 k sh
          = some ⟨k, .user (pyReplace k "user:" "") vh ve vs vc, sh⟩)
  ∧ (∀ (db : DB) (k u l lu : String) (lp : Int) (cs me : List String) (qr : Int) (sh : Bool),
        pyStartsWith k "user:" = false →
        pyStartsWith k "progress:" = true →
        pySplitColon (pyReplace k "progress:" "") = [u, l] →
        MotherDuckStorage.get (MotherDuckStorage.set db k (.progress lp cs me qr lu) sh).2 k sh
          = some ⟨k, .progress lp cs me qr lu, sh⟩)
  ∧ (∀ (db : DB) (k su sc : String) (sh : Bool),
        pyStartsWith k "user:" = false →
        pyStartsWith k "progress:" = false →
        pyStartsWith k "session:" = true →
        MotherDuckStorage.get (MotherDuckStorage.set db k (.session su sc) sh).2 k sh
          = some ⟨k, .session su sc, sh⟩)
  ∧ (∀ (db : DB) (k u l m ms lu : String) (sh : Bool),
        pyStartsWith k "user:" = false →
        pyStartsWith k "progress:" = false →
        pyStartsWith k "session:" = false →
        pyStartsWith k "model:" = true →
        pySplitColon (pyReplace k "model:" "") = [u, l, m] →
        MotherDuckStorage.get (MotherDuckStorage.set db k (.model ms lu) sh).2 k sh
          = some ⟨k, .model ms lu, sh⟩) := by
  refine ⟨?_, ?_, ?_, ?_, ?_⟩
  · intro fs k v sh
    have hf := find?_upsertBy (fun e => e.1 == (sh, k)) (fun _ => ((sh, k), v)) ((sh, k), v)
      fs.entries (by simp) (fun _ _ => by simp)
    simp only [FileStorage.set, FileStorage.get, hf]
    cases fs.entries.find? (fun e => e.1 == (sh, k)) <;> simp
  · intro db k vh ve vs vc sh hu hrows
    have hf := find?_upsertBy (fun r => r.username == pyReplace k "user:" "")
      (fun r => { r with password_hash := vh, email := ve })
      ⟨pyReplace k "user:" "", vh, ve, vs, vc⟩ db.users (by simp)
      (fun x hx => by simpa using hx)
    simp only [MotherDuckStorage.set, MotherDuckStorage.get, hu, if_true, hf]
    cases hfind : db.users.find? (fun r => r.username == pyReplace k "user:" "") with
    | none => simp [hfind]
    | some r =>
      have hname : r.username = pyReplace k "user:" "" := by
        simpa using List.find?_some hfind
      obtain ⟨hs', hc'⟩ := hrows r (List.mem_of_find?_eq_some hfind) hname
      simp [hfind, hname, hs', hc']
  · intro db k u l lu lp cs me qr sh hu hp hsplit
    have hf := find?_upsertBy (fun r => r.username == u && r.lesson_id == l)
      (fun _ => ⟨u, l, lp, cs, me, qr, lu⟩) ⟨u, l, lp, cs, me, qr, lu⟩
      db.learner_progress (by simp) (fun _ _ => by simp)
    simp only [MotherDuckStorage.set, MotherDuckStorage.get, hu, hp, hsplit,
      Bool.false_eq_true, if_false, if_true, hf]
    cases db.learner_progress.find? (fun r => r.username == u && r.lesson_id == l) <;> simp
  · intro db k su sc sh hu hp hs
    have hf := find?_upsertBy (fun r => r.session_token == pyReplace k "session:" "")
      (fun _ => ⟨pyReplace k "session:" "", su, sc, sc⟩)
      ⟨pyReplace k "session:" "", su, sc, sc⟩ db.user_sessions (by simp) (fun _ _ => by simp)
    simp only [MotherDuckStorage.set, MotherDuckStorage.get, hu, hp, hs,
      Bool.false_eq_true, if_false, if_true, hf]
    cases db.user_sessions.find? (fun r => r.session_token == pyReplace k "session:" "") <;> simp
  · intro db k u l m ms lu sh hu hp hs hm hsplit
    have hf := find?_upsertBy
      (fun r => r.username == u && r.lesson_id == l && r.model_name == m)
      (fun _ => ⟨u, l, m, ms, lu⟩) ⟨u, l, m, ms, lu⟩ db.model_edits (by simp)
      (fun _ _ => by simp)
    simp only [MotherDuckStorage.set, MotherDuckStorage.get, hu, hp, hs, hm, hsplit,
      Bool.false_eq_true, if_false, if_true, hf]
    cases db.model_edits.find?
        (fun r => r.username == u && r.lesson_id == l && r.model_name == m) <;> simp

/-- Witness for C1, exercising every conjunct at concrete keys on small
states. -/
theorem C1_set_get_roundtrip_witness :
    FileStorage.get (FileStorage.set ⟨[]⟩ "user:alice" (.user "alice" "h" "e" "s" "c") false).2
        "user:alice" false = some ⟨"user:alice", .user "alice" "h" "e" "s" "c", false⟩
    ∧ MotherDuckStorage.get
        (MotherDuckStorage.set ⟨[], [], [], []⟩ "user:alice"
          (.user (pyReplace "user:alice" "user:" "") "h" "e" "s" "c") false).2
        "user:alice" false
      = some ⟨"user:alice", .user (pyReplace "user:alice" "user:" "") "h" "e" "s" "c", false⟩
    ∧ MotherDuckStorage.get
        (MotherDuckStorage.set ⟨[], [], [], []⟩ "progress:alice:hello_dbt"
          (.progress 20 ["a"] [] 1 "t") false).2 "progress:alice:hello_dbt" false
      = some ⟨"progress:alice:hello_dbt", .progress 20 ["a"] [] 1 "t", false⟩
    ∧ MotherDuckStorage.get
        (MotherDuckStorage.set ⟨[], [], [], []⟩ "session:tok1" (.session "alice" "t0") false).2
        "session:tok1" false
      = some ⟨"session:tok1", .session "alice" "t0", false⟩
    ∧ MotherDuckStorage.get
        (MotherDuckStorage.set ⟨[], [], [], []⟩ "model:alice:hello_dbt:staging"
          (.model "SELECT 1" "t0") false).2 "model:alice:hello_dbt:staging" false
      = some ⟨"model:alice:hello_dbt:staging", .model "SELECT 1" "t0", false⟩ :=
  ⟨C1_set_get_roundtrip.1 ⟨[]⟩ "user:alice" (.user "alice" "h" "e" "s" "c") false,
   C1_set_get_roundtrip.2.1 ⟨[], [], [], []⟩ "user:alice" "h" "e" "s" "c" false
     (by decide) (by decide),
   C1_set_get_roundtrip.2.2.1 ⟨[], [], [], []⟩ "progress:alice:hello_dbt" "alice" "hello_dbt"
     "t" 20 ["a"] [] 1 false (by decide) (by decide) (by decide),
   C1_set_get_roundtrip.2.2.2.1 ⟨[], [], [], []⟩ "session:tok1" "alice" "t0" false
     (by decide) (by decide) (by decide),
   C1_set_get_roundtrip.2.2.2.2 ⟨[], [], [], []⟩ "model:alice:hello_dbt:staging" "alice"
     "hello_dbt" "staging" "SELECT 1" "t0" false
     (by decide) (by decide) (by decide) (by decide) (by decide)⟩

/-! ### Claim C4 -/

/-- C4 counterexample: `MotherDuckStorage.delete` has no branch for `model:`
keys (src/app-railway.py lines 300-331 handle only `user:`, `progress:`,
`session:`), so deleting a stored model edit acknowledges success yet leaves
the row in place, and the subsequent `get` still returns the stored value
instead of the claimed "not found". -/
theorem C4_counterexample :
    (MotherDuckStorage.delete ⟨[], [], [], [⟨"alice", "hello_dbt", "staging", "SELECT 1", "t"⟩]⟩
        "model:alice:hello_dbt:staging" false).1
      = some ⟨"model:alice:hello_dbt:staging", true, false⟩
    ∧ MotherDuckStorage.get
        (MotherDuckStorage.delete
          ⟨[], [], [], [⟨"alice", "hello_dbt", "staging", "SELECT 1", "t"⟩]⟩
          "model:alice:hello_dbt:staging" false).2 "model:alice:hello_dbt:staging" false
      = some ⟨"model:alice:hello_dbt:staging", .model "SELECT 1" "t", false⟩ := by
  constructor
  · decide
  · decide

/-- C4 (amended): for every `user:`, `progress:` or `session:` key,
`delete` followed by `get` of the same key returns "not found" (`None`);
`model:` keys are not handled by `delete` and keep their row. -/
theorem C4_delete_get_none :
    (∀ (db : DB) (k : String) (sh : Bool),
        pyStartsWith k "user:" = true →
        MotherDuckStorage.get (MotherDuckStorage.delete db k sh).2 k sh = none)
  ∧ (∀ (db : DB) (k : String) (sh : Bool),
        pyStartsWith k "user:" = false →
        pyStartsWith k "progress:" = true →
        MotherDuckStorage.get (MotherDuckStorage.delete db k sh).2 k sh = none)
  ∧ (∀ (db : DB) (k : String) (sh : Bool),
        pyStartsWith k "user:" = false →
        pyStartsWith k "progress:" = false →
        pyStartsWith k "session:" = true →
        MotherDuckStorage.get (MotherDuckStorage.delete db k sh).2 k sh = none) := by
  refine ⟨?_, ?_, ?_⟩
  · intro db k sh hu
    simp only [MotherDuckStorage.delete, MotherDuckStorage.get, hu, if_true]
    rw [find?_filter_neg]
  · intro db k sh hu hp
    cases hsplit : pySplitColon (pyReplace k "progress:" "") with
    | nil => simp [MotherDuckStorage.delete, MotherDuckStorage.get, hu, hp, hsplit]
    | cons u t =>
      cases t with
      | nil => simp [MotherDuckStorage.delete, MotherDuckStorage.get, hu, hp, hsplit]
      | cons l t2 =>
        cases t2 with
        | nil =>
          simp only [MotherDuckStorage.delete, MotherDuckStorage.get, hu, hp, hsplit,
            Bool.false_eq_true, if_false, if_true]
          rw [find?_filter_neg]
        | cons c t3 => simp [MotherDuckStorage.delete, MotherDuckStorage.get, hu, hp, hsplit]
  · intro db k sh hu hp hs
    simp only [MotherDuckStorage.delete, MotherDuckStorage.get, hu, hp, hs,
      Bool.false_eq_true, if_false, if_true]
    rw [find?_filter_neg]

/-- Witness for C4's amended statement on all three handled key families. -/
theorem C4_delete_get_none_witness :
    MotherDuckStorage.get
        (MotherDuckStorage.delete ⟨[⟨"alice", "h", "e", "s", "c"⟩], [], [], []⟩
          "user:alice" false).2 "user:alice" false = none
    ∧ MotherDuckStorage.get
        (MotherDuckStorage.delete ⟨[], [⟨"alice", "hello_dbt", 20, ["a"], [], 1, "t"⟩], [], []⟩
          "progress:alice:hello_dbt" false).2 "progress:alice:hello_dbt" false = none
    ∧ MotherDuckStorage.get
        (MotherDuckStorage.delete ⟨[], [], [⟨"tok1", "alice", "t0", "t0"⟩], []⟩
          "session:tok1" false).2 "session:tok1" false = none :=
  ⟨C4_delete_get_none.1 ⟨[⟨"alice", "h", "e", "s", "c"⟩], [], [], []⟩ "user:alice" false
     (by decide),
   C4_delete_get_none.2.1 ⟨[], [⟨"alice", "hello_dbt", 20, ["a"], [], 1, "t"⟩], [], []⟩
     "progress:alice:hello_dbt" false (by decide) (by decide),
   C4_delete_get_none.2.2 ⟨[], [], [⟨"tok1", "alice", "t0", "t0"⟩], []⟩ "session:tok1" false
     (by decide) (by decide) (by decide)⟩

/-! ### Progress pipeline lemmas (shared by C2 and C7) -/

/-- A list is a prefix of itself extended on the right. -/
theorem isPrefixOf_append_self (xs ys : List Char) : xs.isPrefixOf (xs ++ ys) = true := by
  induction xs with
  | nil => cases ys <;> rfl
  | cons a as ih => simp [List.isPrefixOf, ih]

/-- A progress key never enters the `user:` branch. -/
theorem progressKey_not_user (u l : String) :
    pyStartsWith ("progress:" ++ u ++ ":" ++ l) "user:" = false := by
  have hp : ("progress:" ++ u ++ ":" ++ l).data
      = 'p' :: ("rogress:".data ++ (u.data ++ (":".data ++ l.data))) := by
    simp [String.data_append]
  rw [pyStartsWith, hp]
  rfl

/-- A progress key always enters the `progress:` branch. -/
theorem progressKey_is_progress (u l : String) :
    pyStartsWith ("progress:" ++ u ++ ":" ++ l) "progress:" = true := by
  have hp : ("progress:" ++ u ++ ":" ++ l).data
      = "progress:".data ++ (u.data ++ (":".data ++ l.data)) := by
    simp [String.data_append]
  rw [pyStartsWith, hp]
  exact isPrefixOf_append_self _ _

/-- The database after upserting one progress row (the second component of a
successful progress `set`). -/
def upsertProgressRow (db : DB) (u l : String) (lp : Int) (cs me : List String)
    (qr : Int) (lu : String) : DB :=
  let rows' := upsertBy (fun r => r.username == u && r.lesson_id == l)
    (fun _ => ⟨u, l, lp, cs, me, qr, lu⟩) ⟨u, l, lp, cs, me, qr, lu⟩ db.learner_progress
  { db with learner_progress := rows' }

/-- `set` on a well-parsed progress key: the acknowledgement plus the upsert. -/
theorem set_progress_eq (db : DB) (k u l : String) (lp : Int) (cs me : List String)
    (qr : Int) (lu : String) (sh : Bool)
    (hku : pyStartsWith k "user:" = false)
    (hkp : pyStartsWith k "progress:" = true)
    (hsplit : pySplitColon (pyReplace k "progress:" "") = [u, l]) :
    MotherDuckStorage.set db k (.progress lp cs me qr lu) sh
      = (some ⟨k, .progress lp cs me qr lu, sh⟩, upsertProgressRow db u l lp cs me qr lu) := by
  simp [MotherDuckStorage.set, upsertProgressRow, hku, hkp, hsplit]

/-- `get` on a well-parsed progress key is the row lookup. -/
theorem get_progress_eq (db : DB) (k u l : String) (sh : Bool)
    (hku : pyStartsWith k "user:" = false)
    (hkp : pyStartsWith k "progress:" = true)
    (hsplit : pySplitColon (pyReplace k "progress:" "") = [u, l]) :
    MotherDuckStorage.get db k sh
      = match db.learner_progress.find? (fun r => r.username == u && r.lesson_id == l) with
        | some r => some ⟨k, .progress r.lesson_progress r.completed_steps r.models_executed
            r.queries_run r.last_updated, sh⟩
        | none => none := by
  simp [MotherDuckStorage.get, hku, hkp, hsplit]

/-- `save_progress` stamps `now` and upserts the row. -/
theorem save_progress_eq (db : DB) (u l : String) (pd : ProgressData) (now : String)
    (hku : pyStartsWith ("progress:" ++ u ++ ":" ++ l) "user:" = false)
    (hkp : pyStartsWith ("progress:" ++ u ++ ":" ++ l) "progress:" = true)
    (hsplit : pySplitColon (pyReplace ("progress:" ++ u ++ ":" ++ l) "progress:" "") = [u, l]) :
    UserManager.save_progress db u l pd now
      = (true, upsertProgressRow db u l pd.lesson_progress pd.completed_steps
          pd.models_executed pd.queries_run now) := by
  rw [UserManager.save_progress,
    set_progress_eq db ("progress:" ++ u ++ ":" ++ l) u l pd.lesson_progress pd.completed_steps
      pd.models_executed pd.queries_run now false hku hkp hsplit]

/-- Reading back the `(u, l)` record after its upsert. -/
theorem get_progress_upsert (db : DB) (u l : String) (lp : Int) (cs me : List String)
    (qr : Int) (lu : String)
    (hku : pyStartsWith ("progress:" ++ u ++ ":" ++ l) "user:" = false)
    (hkp : pyStartsWith ("progress:" ++ u ++ ":" ++ l) "progress:" = true)
    (hsplit : pySplitColon (pyReplace ("progress:" ++ u ++ ":" ++ l) "progress:" "") = [u, l]) :
    UserManager.get_progress (upsertProgressRow db u l lp cs me qr lu) u l
      = ⟨lp, cs, me, qr, some lu⟩ := by
  have hf := find?_upsertBy (fun r => r.username == u && r.lesson_id == l)
    (fun _ => (⟨u, l, lp, cs, me, qr, lu⟩ : ProgressRow))
    ⟨u, l, lp, cs, me, qr, lu⟩ db.learner_progress (by simp) (fun _ _ => by simp)
  rw [UserManager.get_progress,
    get_progress_eq (upsertProgressRow db u l lp cs me qr lu) _ u l false hku hkp hsplit]
  simp only [upsertProgressRow, hf]
  cases db.learner_progress.find? (fun r => r.username == u && r.lesson_id == l) <;> simp

/-- Saving a record and reading it back yields the record with the fresh
timestamp. -/
theorem get_progress_read_back (db : DB) (u l : String) (pd : ProgressData) (now : String)
    (hku : pyStartsWith ("progress:" ++ u ++ ":" ++ l) "user:" = false)
    (hkp : pyStartsWith ("progress:" ++ u ++ ":" ++ l) "progress:" = true)
    (hsplit : pySplitColon (pyReplace ("progress:" ++ u ++ ":" ++ l) "progress:" "") = [u, l]) :
    UserManager.get_progress (UserManager.save_progress db u l pd now).2 u l
      = { pd with last_updated := some now } := by
  rw [save_progress_eq db u l pd now hku hkp hsplit]
  rw [get_progress_upsert db u l pd.lesson_progress pd.completed_steps pd.models_executed
    pd.queries_run now hku hkp hsplit]

/-- With non-empty identifiers, one `update_progress` call reports success
and performs exactly a save of the transformed current record. -/
theorem update_progress_eq (db : DB) (u l : String) (inc : Int) (step : Option String)
    (now : String) (hu : u ≠ "") (hl : l ≠ "")
    (hsplit : pySplitColon (pyReplace ("progress:" ++ u ++ ":" ++ l) "progress:" "") = [u, l]) :
    update_progress db u l inc step now
      = (some true, (UserManager.save_progress db u l
          (apply_update (UserManager.get_progress db u l) inc step) now).2) := by
  have hcond : (u == "" || l == "") = false := by simp [hu, hl]
  rw [update_progress, hcond]
  simp only [Bool.false_eq_true, if_false]
  rw [save_progress_eq db u l (apply_update (UserManager.get_progress db u l) inc step) now
    (progressKey_not_user u l) (progressKey_is_progress u l) hsplit]

/-- After one call, the stored `lesson_progress` is the clamped value. -/
theorem apply_update_lesson_progress (p : ProgressData) (inc : Int) (step : Option String) :
    (apply_update p inc step).lesson_progress = min 100 (p.lesson_progress + inc) := by
  cases step with
  | none => rfl
  | some s =>
    by_cases hmem : s ∈ ({ p with lesson_progress := min 100 (p.lesson_progress + inc) }
        : ProgressData).completed_steps
    · simp [apply_update, hmem]
    · simp [apply_update, hmem]

/-! ### Claim C2 -/

/-- C2 counterexample: the code clamps only from above
(`min(100, current + increment)`, src/app-railway.py line 1524), so from a
stored record at 0 an increment of `-5` drives `lesson_progress` to `-5`,
outside `[0, 100]`. -/
theorem C2_counterexample :
    (UserManager.get_progress
        (update_progress ⟨[], [⟨"alice", "l1", 0, [], [], 0, "t"⟩], [], []⟩
          "alice" "l1" (-5) none "t1").2 "alice" "l1").lesson_progress = -5
    ∧ ¬(0 ≤ (-5 : Int)) := by
  constructor
  · decide
  · decide

/-- C2 (amended): after any `update_progress` call the stored
`lesson_progress` is at most 100, whatever the increment; and along any
sequence of calls with nonnegative increments, starting from a stored value
inside `[0, 100]`, it stays inside `[0, 100]`.  (A negative increment can
leave the interval from below — see the counterexample.) -/
theorem C2_progress_clamped :
    (∀ (db : DB) (u l : String) (inc : Int) (step : Option String) (now : String),
        u ≠ "" → l ≠ "" →
        pySplitColon (pyReplace ("progress:" ++ u ++ ":" ++ l) "progress:" "") = [u, l] →
        (UserManager.get_progress (update_progress db u l inc step now).2 u l).lesson_progress
          ≤ 100)
  ∧ (∀ (db : DB) (u l : String) (calls : List (Int × Option String)) (now : String),
        u ≠ "" → l ≠ "" →
        pySplitColon (pyReplace ("progress:" ++ u ++ ":" ++ l) "progress:" "") = [u, l] →
        (∀ c ∈ calls, 0 ≤ c.1) →
        0 ≤ (UserManager.get_progress db u l).lesson_progress →
        (UserManager.get_progress db u l).lesson_progress ≤ 100 →
        0 ≤ (UserManager.get_progress (run_updates db u l calls now) u l).lesson_progress
          ∧ (UserManager.get_progress (run_updates db u l calls now) u l).lesson_progress
            ≤ 100) := by
  have key : ∀ (db : DB) (u l : String) (inc : Int) (step : Option String) (now : String),
      u ≠ "" → l ≠ "" →
      pySplitColon (pyReplace ("progress:" ++ u ++ ":" ++ l) "progress:" "") = [u, l] →
      (UserManager.get_progress (update_progress db u l inc step now).2 u l).lesson_progress
        = min 100 ((UserManager.get_progress db u l).lesson_progress + inc) := by
    intro db u l inc step now hu hl hsplit
    rw [update_progress_eq db u l inc step now hu hl hsplit]
    rw [get_progress_read_back db u l (apply_update (UserManager.get_progress db u l) inc step)
      now (progressKey_not_user u l) (progressKey_is_progress u l) hsplit]
    simp [apply_update_lesson_progress]
  constructor
  · intro db u l inc step now hu hl hsplit
    rw [key db u l inc step now hu hl hsplit]
    exact min_le_left _ _
  · intro db u l calls now hu hl hsplit
    induction calls generalizing db with
    | nil =>
      intro _ h0 h100
      simpa [run_updates] using And.intro h0 h100
    | cons c cs ih =>
      intro hincs h0 h100
      have hc : (0 : Int) ≤ c.1 := hincs c (by simp)
      have hcs : ∀ x ∈ cs, (0 : Int) ≤ x.1 := fun x hx => hincs x (by simp [hx])
      have hval := key db u l c.1 c.2 now hu hl hsplit
      have hlo : 0 ≤ (UserManager.get_progress
          (update_progress db u l c.1 c.2 now).2 u l).lesson_progress := by
        rw [hval]
        exact le_min (by norm_num) (by omega)
      have hhi : (UserManager.get_progress
          (update_progress db u l c.1 c.2 now).2 u l).lesson_progress ≤ 100 := by
        rw [hval]
        exact min_le_left _ _
      have := ih (update_progress db u l c.1 c.2 now).2 hcs hlo hhi
      simpa [run_updates] using this

/-- Witness for C2's amended statement: an oversized increment of 200 is
clamped at 100, and a two-call all-nonnegative run stays inside `[0, 100]`. -/
theorem C2_progress_clamped_witness :
    (UserManager.get_progress
        (update_progress ⟨[], [], [], []⟩ "alice" "l1" 200 none "t").2
        "alice" "l1").lesson_progress ≤ 100
    ∧ (0 ≤ (UserManager.get_progress
          (run_updates ⟨[], [], [], []⟩ "alice" "l1" [(200, none), (50, some "s")] "t")
          "alice" "l1").lesson_progress
        ∧ (UserManager.get_progress
            (run_updates ⟨[], [], [], []⟩ "alice" "l1" [(200, none), (50, some "s")] "t")
            "alice" "l1").lesson_progress ≤ 100) :=
  ⟨C2_progress_clamped.1 ⟨[], [], [], []⟩ "alice" "l1" 200 none "t"
     (by decide) (by decide) (by decide),
   C2_progress_clamped.2 ⟨[], [], [], []⟩ "alice" "l1" [(200, none), (50, some "s")] "t"
     (by decide) (by decide) (by decide) (by decide) (by decide) (by decide)⟩

/-! ### Claim C7 -/

/-- C7: from the zero-valued default record,
`update_progress(20, "sandbox_initialized")` then
`update_progress(90, "models_executed")` stores `lesson_progress = 100`
(20 + 90 clamped) with both step names recorded exactly once each. -/
theorem C7_scenario_b (db : DB) (u l now1 now2 : String)
    (hu : u ≠ "") (hl : l ≠ "")
    (hsplit : pySplitColon (pyReplace ("progress:" ++ u ++ ":" ++ l) "progress:" "") = [u, l])
    (hnone : db.learner_progress.find? (fun r => r.username == u && r.lesson_id == l) = none) :
    (UserManager.get_progress
        (update_progress (update_progress db u l 20 (some "sandbox_initialized") now1).2
          u l 90 (some "models_executed") now2).2 u l).lesson_progress = 100
    ∧ (UserManager.get_progress
        (update_progress (update_progress db u l 20 (some "sandbox_initialized") now1).2
          u l 90 (some "models_executed") now2).2 u l).completed_steps.count
        "sandbox_initialized" = 1
    ∧ (UserManager.get_progress
        (update_progress (update_progress db u l 20 (some "sandbox_initialized") now1).2
          u l 90 (some "models_executed") now2).2 u l).completed_steps.count
        "models_executed" = 1 := by
  have hku := progressKey_not_user u l
  have hkp := progressKey_is_progress u l
  have h0 : UserManager.get_progress db u l = ⟨0, [], [], 0, none⟩ := by
    rw [UserManager.get_progress, get_progress_eq db _ u l false hku hkp hsplit, hnone]
  have hr1 : UserManager.get_progress
      (update_progress db u l 20 (some "sandbox_initialized") now1).2 u l
      = ⟨20, ["sandbox_initialized"], [], 0, some now1⟩ := by
    rw [update_progress_eq db u l 20 (some "sandbox_initialized") now1 hu hl hsplit]
    rw [get_progress_read_back db u l
      (apply_update (UserManager.get_progress db u l) 20 (some "sandbox_initialized")) now1
      hku hkp hsplit]
    rw [h0]
    simp [apply_update, min_def]
  have hr2 : UserManager.get_progress
      (update_progress (update_progress db u l 20 (some "sandbox_initialized") now1).2
        u l 90 (some "models_executed") now2).2 u l
      = ⟨100, ["sandbox_initialized", "models_executed"], [], 0, some now2⟩ := by
    rw [update_progress_eq (update_progress db u l 20 (some "sandbox_initialized") now1).2
      u l 90 (some "models_executed") now2 hu hl hsplit]
    rw [get_progress_read_back (update_progress db u l 20 (some "sandbox_initialized") now1).2
      u l (apply_update (UserManager.get_progress
        (update_progress db u l 20 (some "sandbox_initialized") now1).2 u l) 90
        (some "models_executed")) now2 hku hkp hsplit]
    rw [hr1]
    simp [apply_update, min_def]
  rw [hr2]
  exact ⟨rfl, rfl, rfl⟩

/-- Witness for C7 on the empty database with the lesson from the catalog. -/
theorem C7_scenario_b_witness :
    (UserManager.get_progress
        (update_progress
          (update_progress ⟨[], [], [], []⟩ "alice" "cafe_chain" 20
            (some "sandbox_initialized") "t1").2
          "alice" "cafe_chain" 90 (some "models_executed") "t2").2
        "alice" "cafe_chain").lesson_progress = 100
    ∧ (UserManager.get_progress
        (update_progress
          (update_progress ⟨[], [], [], []⟩ "alice" "cafe_chain" 20
            (some "sandbox_initialized") "t1").2
          "alice" "cafe_chain" 90 (some "models_executed") "t2").2
        "alice" "cafe_chain").completed_steps.count "sandbox_initialized" = 1
    ∧ (UserManager.get_progress
        (update_progress
          (update_progress ⟨[], [], [], []⟩ "alice" "cafe_chain" 20
            (some "sandbox_initialized") "t1").2
          "alice" "cafe_chain" 90 (some "models_executed") "t2").2
        "alice" "cafe_chain").completed_steps.count "models_executed" = 1 :=
  C7_scenario_b ⟨[], [], [], []⟩ "alice" "cafe_chain" "t1" "t2"
    (by decide) (by decide) (by decide) (by decide)

/-! ### Prefix lemmas for `list` (claim C3) -/

/-- Cancel a common left part of a prefix test. -/
theorem isPrefixOf_append_cancel (xs a b : List Char) :
    (xs ++ a).isPrefixOf (xs ++ b) = a.isPrefixOf b := by
  induction xs with
  | nil => rfl
  | cons c cs ih => simp [List.isPrefixOf, ih]

/-- For colon-free `u0` and `v`, the colon-terminated `u0` is a prefix of
`v ++ ':' :: rest` exactly when `u0 = v`. -/
theorem colon_prefix_eq (u0 : List Char) :
    ∀ (v rest : List Char), ':' ∉ u0 → ':' ∉ v →
      (u0 ++ [':']).isPrefixOf (v ++ ':' :: rest) = decide (u0 = v) := by
  induction u0 with
  | nil =>
    intro v rest _ hv
    cases v with
    | nil => simp [List.isPrefixOf]
    | cons c v' =>
      have hc : ¬(':' = c) := fun h => hv (h ▸ List.mem_cons_self c v')
      simp [List.isPrefixOf, hc]
  | cons a u0' ih =>
    intro v rest hu hv
    have ha : a ≠ ':' := fun h => hu (h ▸ List.mem_cons_self a u0')
    cases v with
    | nil => simp [List.isPrefixOf, ha]
    | cons c v' =>
      have hu' : ':' ∉ u0' := fun h => hu (List.mem_cons_of_mem a h)
      have hv' : ':' ∉ v' := fun h => hv (List.mem_cons_of_mem c h)
      by_cases hac : a = c
      · subst hac
        simp [List.isPrefixOf, ih v' rest hu' hv']
      · simp [List.isPrefixOf, hac]

/-- A `user:` key never matches a `progress:` list filter. -/
theorem user_key_not_progress_prefix (x u : String) :
    pyStartsWith ("user:" ++ x) ("progress:" ++ u ++ ":") = false := by
  have h1 : ("user:" ++ x).data = 'u' :: ("ser:".data ++ x.data) := by
    simp [String.data_append]
  have h2 : ("progress:" ++ u ++ ":").data
      = 'p' :: ("rogress:".data ++ (u.data ++ ":".data)) := by
    simp [String.data_append]
  rw [pyStartsWith, h1, h2]
  rfl

/-- A `session:` key never matches a `progress:` list filter. -/
theorem session_key_not_progress_prefix (x u : String) :
    pyStartsWith ("session:" ++ x) ("progress:" ++ u ++ ":") = false := by
  have h1 : ("session:" ++ x).data = 's' :: ("ession:".data ++ x.data) := by
    simp [String.data_append]
  have h2 : ("progress:" ++ u ++ ":").data
      = 'p' :: ("rogress:".data ++ (u.data ++ ":".data)) := by
    simp [String.data_append]
  rw [pyStartsWith, h1, h2]
  rfl

/-- A `model:` key never matches a `progress:` list filter. -/
theorem model_key_not_progress_prefix (a b c u : String) :
    pyStartsWith ("model:" ++ a ++ ":" ++ b ++ ":" ++ c) ("progress:" ++ u ++ ":") = false := by
  have h1 : ("model:" ++ a ++ ":" ++ b ++ ":" ++ c).data
      = 'm' :: ("odel:".data ++ (a.data ++ (":".data ++ (b.data ++ (":".data ++ c.data))))) := by
    simp [String.data_append]
  have h2 : ("progress:" ++ u ++ ":").data
      = 'p' :: ("rogress:".data ++ (u.data ++ ":".data)) := by
    simp [String.data_append]
  rw [pyStartsWith, h1, h2]
  rfl

/-- A stored progress key matches the `progress:<u>:` filter exactly when its
username is `u` (both colon-free). -/
theorem progress_key_prefix_eq (u ru rl : String) (hu : ':' ∉ u.data)
    (hru : ':' ∉ ru.data) :
    pyStartsWith ("progress:" ++ ru ++ ":" ++ rl) ("progress:" ++ u ++ ":") = (ru == u) := by
  have h1 : ("progress:" ++ u ++ ":").data = "progress:".data ++ (u.data ++ [':']) := by
    simp [String.data_append]
  have h2 : ("progress:" ++ ru ++ ":" ++ rl).data
      = "progress:".data ++ (ru.data ++ ':' :: rl.data) := by
    simp [String.data_append]
  rw [pyStartsWith, h1, h2, isPrefixOf_append_cancel,
    colon_prefix_eq u.data ru.data rl.data hu hru]
  by_cases h : ru = u
  · subst h
    simp
  · have hd : ¬u.data = ru.data := fun hdd => h (String.ext hdd).symm
    simp [hd, beq_eq_false_iff_ne.mpr h]

/-- The concatenated progress prefix is never the empty string. -/
theorem progressPrefix_ne_empty (u : String) : ("progress:" ++ u ++ ":") ≠ "" := by
  intro h
  have hd := congrArg String.data h
  simp [String.data_append] at hd

/-- The concatenated progress prefix starts with `progress:`. -/
theorem progressPrefix_starts (u : String) :
    pyStartsWith ("progress:" ++ u ++ ":") "progress:" = true := by
  have hp : ("progress:" ++ u ++ ":").data = "progress:".data ++ (u.data ++ ":".data) := by
    simp [String.data_append]
  rw [pyStartsWith, hp]
  exact isPrefixOf_append_self _ _

/-- Filtering a mapped list whose images all fail the test gives `[]`. -/
theorem filter_map_false (f : α → β) (p : β → Bool) (l : List α)
    (h : ∀ x ∈ l, p (f x) = false) : (l.map f).filter p = [] := by
  induction l with
  | nil => rfl
  | cons a as ih =>
    simp only [List.map, List.filter, h a (by simp)]
    exact ih (fun x hx => h x (by simp [hx]))

/-- Filtering a mapped list by a test that factors through the elements. -/
theorem filter_map_factor (f : α → β) (p : β → Bool) (q : α → Bool) (l : List α)
    (h : ∀ x ∈ l, p (f x) = q x) : (l.map f).filter p = (l.filter q).map f := by
  induction l with
  | nil => rfl
  | cons a as ih =>
    have ha := h a (by simp)
    have ih' := ih (fun x hx => h x (by simp [hx]))
    cases hq : q a with
    | true => simp [List.filter, List.map, ha, hq, ih']
    | false => simp [List.filter, List.map, ha, hq, ih']

/-! ### Username extraction in `list`

`list` recovers the username from the argument with
`prefix.replace("progress:", "").rstrip(":")` — a replace of **every**
occurrence.  For a colon-free username `u`, the string `progress:<u>:` can
contain a second occurrence of `progress:` only straddling the final colon,
i.e. exactly when `u` ends with the letters `progress`; otherwise the
extraction gives `u` back.  The lemmas below prove the recovery under that
condition (the counterexample shows the `xprogress` failure when it is
violated). -/

/-- The empty list is a prefix of everything. -/
theorem nil_isPrefixOf (l : List Char) : ([] : List Char).isPrefixOf l = true := by
  cases l <;> rfl

/-- Every list is a prefix of itself. -/
theorem isPrefixOf_self (l : List Char) : l.isPrefixOf l = true := by
  induction l with
  | nil => rfl
  | cons c cs ih => simp [List.isPrefixOf, ih]

/-- A prefix stays a prefix after extending the larger list. -/
theorem isPrefixOf_extend (a : List Char) :
    ∀ (b e : List Char), a.isPrefixOf b = true → a.isPrefixOf (b ++ e) = true := by
  induction a with
  | nil => intro b e _; exact nil_isPrefixOf _
  | cons x xs ih =>
    intro b e h
    cases b with
    | nil => simp [List.isPrefixOf] at h
    | cons y ys =>
      simp only [List.cons_append, List.isPrefixOf, Bool.and_eq_true] at h ⊢
      exact ⟨h.1, ih ys e h.2⟩

/-- A suffix of a list is a suffix of any cons-extension. -/
theorem isSuffixOf_cons_true (P w : List Char) (c : Char)
    (h : P.isSuffixOf w = true) : P.isSuffixOf (c :: w) = true := by
  simp only [List.isSuffixOf] at h ⊢
  rw [List.reverse_cons]
  exact isPrefixOf_extend _ _ _ h

/-- Every list is a suffix of itself. -/
theorem isSuffixOf_self (P : List Char) : P.isSuffixOf P = true := by
  simp [List.isSuffixOf, isPrefixOf_self]

/-- Scanning `w ++ [':']` for `progress:` finds nothing when `w` is
colon-free and does not end with `progress`. -/
theorem replaceAux_progress_skip :
    ∀ (w : List Char) (fuel : Nat), ':' ∉ w →
      "progress".data.isSuffixOf w = false → w.length < fuel →
      replaceAux "progress:".data [] fuel (w ++ [':']) = w ++ [':'] := by
  intro w
  induction w with
  | nil =>
    intro fuel _ _ hf
    cases fuel with
    | zero => exact absurd hf (Nat.not_lt_zero _)
    | succ f =>
      have htest : ("progress:".data.isPrefixOf [':']) = false := by decide
      have hrest : replaceAux "progress:".data [] f [] = [] := by cases f <;> rfl
      simp [replaceAux, htest, hrest]
  | cons c w' ih =>
    intro fuel hw hend hf
    cases fuel with
    | zero => exact absurd hf (Nat.not_lt_zero _)
    | succ f =>
      have hw' : ':' ∉ w' := fun hm => hw (List.mem_cons_of_mem c hm)
      have hend' : "progress".data.isSuffixOf w' = false := by
        cases h : "progress".data.isSuffixOf w' with
        | false => rfl
        | true =>
          rw [isSuffixOf_cons_true _ _ c h] at hend
          simp at hend
      have hne : ¬("progress".data = c :: w') := by
        intro hP
        rw [← hP, isSuffixOf_self] at hend
        simp at hend
      have htest : ("progress:".data.isPrefixOf (c :: (w' ++ [':']))) = false := by
        rw [show c :: (w' ++ [':']) = (c :: w') ++ ':' :: [] from by simp,
          show "progress:".data = "progress".data ++ [':'] from rfl,
          colon_prefix_eq "progress".data (c :: w') [] (by decide) hw]
        simp [hne]
      have hlen : w'.length < f := by
        simp only [List.length_cons] at hf
        omega
      rw [show (c :: w') ++ [':'] = c :: (w' ++ [':']) from rfl]
      simp only [replaceAux, htest, Bool.false_eq_true, if_false]
      rw [ih f hw' hend' hlen]

/-- Python's replace-all of `progress:` on `progress:<u>:` leaves `<u>:`
when `u` is colon-free and does not end with `progress`. -/
theorem replace_progress_all (u : String) (hu : ':' ∉ u.data)
    (hend : "progress".data.isSuffixOf u.data = false) :
    pyReplace ("progress:" ++ u ++ ":") "progress:" "" = u ++ ":" := by
  have hdata : ("progress:" ++ u ++ ":").data = "progress:".data ++ (u.data ++ [':']) := by
    simp [String.data_append]
  have hlen : ("progress:".data ++ (u.data ++ [':'])).length
      = (8 + (u.data.length + 1)) + 1 := by
    simp [List.length_append]
    omega
  have hstep : replaceAux "progress:".data [] ((8 + (u.data.length + 1)) + 1)
      ("progress:".data ++ (u.data ++ [':'])) = u.data ++ [':'] := by
    rw [show "progress:".data ++ (u.data ++ [':'])
        = 'p' :: ("rogress:".data ++ (u.data ++ [':'])) from by simp]
    have htest : "progress:".data.isPrefixOf
        ('p' :: ("rogress:".data ++ (u.data ++ [':']))) = true := by
      rw [show 'p' :: ("rogress:".data ++ (u.data ++ [':']))
          = "progress:".data ++ (u.data ++ [':']) from by simp]
      exact isPrefixOf_append_self _ _
    simp only [replaceAux, htest, if_true]
    rw [show ('p' :: ("rogress:".data ++ (u.data ++ [':']))).drop "progress:".data.length
        = u.data ++ [':'] from by simp]
    simp only [List.nil_append]
    exact replaceAux_progress_skip u.data (8 + (u.data.length + 1)) hu hend (by omega)
  simp only [pyReplace, show ("" : String).data = [] from rfl, hdata, hlen, hstep]
  exact String.ext (by simp [String.data_append])

/-- `rstrip(":")` on `<u>:` gives back a colon-free `u`. -/
theorem pyRstripColon_append_colon (u : String) (hu : ':' ∉ u.data) :
    pyRstripColon (u ++ ":") = u := by
  have hdata : (u ++ ":").data = u.data ++ [':'] := by simp [String.data_append]
  simp only [pyRstripColon, hdata, List.reverse_append]
  cases hrev : u.data.reverse with
  | nil =>
    have hnil : u.data = [] := by
      have := congrArg List.reverse hrev
      simpa using this
    simp [List.dropWhile]
    exact (String.ext hnil.symm)
  | cons c t =>
    have hc : c ∈ u.data := by
      rw [← List.mem_reverse, hrev]
      exact List.mem_cons_self c t
    have hcc : (c == ':') = false := beq_eq_false_iff_ne.mpr (fun h => hu (h ▸ hc))
    simp [List.dropWhile, hcc, ← hrev]

/-- The full username extraction of `list` recovers a colon-free `u` that
does not end with `progress`. -/
theorem progress_parse_recover (u : String) (hu : ':' ∉ u.data)
    (hend : "progress".data.isSuffixOf u.data = false) :
    pyRstripColon (pyReplace ("progress:" ++ u ++ ":") "progress:" "") = u := by
  rw [replace_progress_all u hu hend, pyRstripColon_append_colon u hu]

/-! ### Claim C3 -/

/-- C3 counterexample: `list` only ever queries the progress table
(src/app-railway.py lines 333-353), so with a stored user record the prefix
`"user:"` matches a stored key yet `list` returns no keys at all.  Moreover,
even restricted to progress prefixes with colon-free usernames, exactness
fails when the username ends in `progress`: the replace-all extraction of
`"progress:xprogress:"` yields the username `"x"`, so `list` returns no keys
although the stored key `"progress:xprogress:l1"` shares the prefix — and
that row is reachable through `set` itself. -/
theorem C3_counterexample :
    ((MotherDuckStorage.list ⟨[⟨"alice", "h", "e", "s", "c"⟩], [], [], []⟩
        (some "user:") false).keys = []
      ∧ "user:alice" ∈ dbKeys ⟨[⟨"alice", "h", "e", "s", "c"⟩], [], [], []⟩
      ∧ pyStartsWith "user:alice" "user:" = true)
    ∧ ((MotherDuckStorage.set ⟨[], [], [], []⟩ "progress:xprogprogress:ress:l1"
          (.progress 0 [] [] 0 "t") false).2.learner_progress
        = [⟨"xprogress", "l1", 0, [], [], 0, "t"⟩]
      ∧ (MotherDuckStorage.list ⟨[], [⟨"xprogress", "l1", 0, [], [], 0, "t"⟩], [], []⟩
          (some "progress:xprogress:") false).keys = []
      ∧ "progress:xprogress:l1"
          ∈ dbKeys ⟨[], [⟨"xprogress", "l1", 0, [], [], 0, "t"⟩], [], []⟩
      ∧ pyStartsWith "progress:xprogress:l1" "progress:xprogress:" = true
      ∧ ':' ∉ "xprogress".data) := by
  refine ⟨⟨?_, ?_, ?_⟩, ?_, ?_, ?_, ?_, ?_⟩
  · decide
  · decide
  · decide
  · decide
  · decide
  · decide
  · decide
  · decide

set_option maxHeartbeats 1000000 in
/-- C3 (amended): `list` returns exactly the stored keys sharing the prefix
only for arguments of the form `progress:<u>:` where `u` is colon-free and
does not end with the letters `progress` (so the replace-all extraction
recovers it), with colon-free stored usernames (the only kind `set` can
produce); for a `None` argument or any prefix not starting with `progress:`
it returns the empty key list regardless of what is stored.  When `u` ends
with `progress` the extraction mangles the username and exactness fails —
see the counterexample. -/
theorem C3_list_exactness :
    (∀ (db : DB) (sh : Bool), (MotherDuckStorage.list db none sh).keys = [])
  ∧ (∀ (db : DB) (p : String) (sh : Bool),
        pyStartsWith p "progress:" = false →
        (MotherDuckStorage.list db (some p) sh).keys = [])
  ∧ (∀ (db : DB) (u : String) (sh : Bool),
        ':' ∉ u.data →
        "progress".data.isSuffixOf u.data = false →
        (∀ r ∈ db.learner_progress, ':' ∉ r.username.data) →
        (MotherDuckStorage.list db (some ("progress:" ++ u ++ ":")) sh).keys
          = (dbKeys db).filter (fun k => pyStartsWith k ("progress:" ++ u ++ ":"))) := by
  refine ⟨fun db sh => rfl, ?_, ?_⟩
  · intro db p sh hps
    simp [MotherDuckStorage.list, hps]
  · intro db u sh hu hend hrows
    have hparse := progress_parse_recover u hu hend
    have hcond : (!(("progress:" ++ u ++ ":") == "")
        && pyStartsWith ("progress:" ++ u ++ ":") "progress:") = true := by
      rw [beq_eq_false_iff_ne.mpr (progressPrefix_ne_empty u), progressPrefix_starts u]
      rfl
    simp only [MotherDuckStorage.list, hcond, if_true]
    rw [hparse, dbKeys, List.filter_append, List.filter_append, List.filter_append]
    rw [filter_map_false (fun r => "user:" ++ r.username)
      (fun k => pyStartsWith k ("progress:" ++ u ++ ":")) db.users
      (fun r _ => user_key_not_progress_prefix r.username u)]
    rw [filter_map_false (fun r => "session:" ++ r.session_token)
      (fun k => pyStartsWith k ("progress:" ++ u ++ ":")) db.user_sessions
      (fun r _ => session_key_not_progress_prefix r.session_token u)]
    rw [filter_map_false
      (fun r => "model:" ++ r.username ++ ":" ++ r.lesson_id ++ ":" ++ r.model_name)
      (fun k => pyStartsWith k ("progress:" ++ u ++ ":")) db.model_edits
      (fun r _ => model_key_not_progress_prefix r.username r.lesson_id r.model_name u)]
    rw [filter_map_factor (fun r => "progress:" ++ r.username ++ ":" ++ r.lesson_id)
      (fun k => pyStartsWith k ("progress:" ++ u ++ ":")) (fun r => r.username == u)
      db.learner_progress
      (fun r hr => progress_key_prefix_eq u r.username r.lesson_id hu (hrows r hr))]
    simp

/-- Witness for C3's amended statement: a mixed store where exactly the
`alice` progress rows match `progress:alice:`, and a non-progress prefix
yields nothing. -/
theorem C3_list_exactness_witness :
    (MotherDuckStorage.list
        ⟨[⟨"alice", "h", "e", "s", "c"⟩],
         [⟨"alice", "l1", 10, [], [], 0, "t"⟩, ⟨"bob", "l2", 5, [], [], 0, "t"⟩,
          ⟨"alice", "l3", 0, [], [], 0, "t"⟩], [⟨"tok", "alice", "t0", "t0"⟩], []⟩
        (some ("progress:" ++ "alice" ++ ":")) false).keys
      = (dbKeys ⟨[⟨"alice", "h", "e", "s", "c"⟩],
          [⟨"alice", "l1", 10, [], [], 0, "t"⟩, ⟨"bob", "l2", 5, [], [], 0, "t"⟩,
           ⟨"alice", "l3", 0, [], [], 0, "t"⟩], [⟨"tok", "alice", "t0", "t0"⟩], []⟩).filter
          (fun k => pyStartsWith k ("progress:" ++ "alice" ++ ":"))
    ∧ (MotherDuckStorage.list
        ⟨[⟨"alice", "h", "e", "s", "c"⟩], [⟨"alice", "l1", 10, [], [], 0, "t"⟩], [], []⟩
        (some "user:") false).keys = [] :=
  ⟨C3_list_exactness.2.2
     ⟨[⟨"alice", "h", "e", "s", "c"⟩],
      [⟨"alice", "l1", 10, [], [], 0, "t"⟩, ⟨"bob", "l2", 5, [], [], 0, "t"⟩,
       ⟨"alice", "l3", 0, [], [], 0, "t"⟩], [⟨"tok", "alice", "t0", "t0"⟩], []⟩
     "alice" false (by decide) (by decide) (by decide),
   C3_list_exactness.2.1
     ⟨[⟨"alice", "h", "e", "s", "c"⟩], [⟨"alice", "l1", 10, [], [], 0, "t"⟩], [], []⟩
     "user:" false (by decide)⟩

end DecodeDbt

